import Mathlib

/-!
Verification development for the time-tracking agent (`src/t.py`).

The Python program is shallowly embedded:

* `detect_process_changes` / `updatePreviousProcesses` embed the process
  change detector (`t.py` lines 734-811).  A `psutil` info dictionary is a
  `ProcInfo`; Python truthiness of `proc.get('pid')` is `pid = some n` with
  `n ≠ 0`.  Timestamps (`datetime.now().isoformat()`) are threaded as an
  opaque `String` argument `now`.
* `compress_folder_to_zip` / `upload_folder_to_b2` embed the upload routine
  (`t.py` lines 197-290).  Filesystem and network effects are made explicit:
  an `UploadEnv` records which collaborator calls succeed, an `UploadResult`
  records the return value and the on-disk state left behind.
* A `TrackerState` transition system embeds the session lifecycle manager,
  the writer threads and the upload queue (`t.py` lines 59-184, 292-383,
  821-871, 925-957).  Session directories are named by their creation
  timestamps (`session_%Y%m%d_%H%M%S`); timestamps are modelled as strictly
  increasing naturals, every step that reads the clock takes the current
  time `now` with the monotonicity hypothesis `st.nextId ≤ now`.
-/

/-- One entry of the list produced by `get_running_processes`: the selected
`psutil` attributes.  `none` models a missing dictionary key. -/
structure ProcInfo where
  pid : Option Nat
  name : Option String
  exe : Option String
  username : Option String
  deriving DecidableEq

/-- One `process_stopped` change record built by `detect_process_changes`. -/
structure StoppedRecord where
  pid : Nat
  name : String
  exe : String
  timestamp : String
  stoppedAt : String
  deriving DecidableEq

/-- One `process_started` change record built by `detect_process_changes`. -/
structure StartedRecord where
  pid : Nat
  name : String
  exe : String
  username : String
  timestamp : String
  startedAt : String
  deriving DecidableEq

/-- The `changes` dictionary returned by `detect_process_changes`. -/
structure ProcessChanges where
  started : List StartedRecord
  stopped : List StoppedRecord
  deriving DecidableEq

/-- Python truthiness of `proc.get('pid')`: a missing key and pid `0` are
both falsy. -/
def pidTruthy : Option Nat → Bool
  | some n => n != 0
  | none => false

/-- `current_pids = {proc.get('pid') for proc in current_processes if proc.get('pid')}`
(the set is used only for membership, so a list suffices). -/
def currentPidsOf (currentProcesses : List ProcInfo) : List Nat :=
  currentProcesses.filterMap fun p =>
    match p.pid with
    | some n => if n ≠ 0 then some n else none
    | none => none

/-- All pids literally present in the current list, `0` included.  Used only
to state claims about "pids present in the current list". -/
def listPids (currentProcesses : List ProcInfo) : List Nat :=
  currentProcesses.filterMap (fun p => p.pid)

/-- `TimeTracker.detect_process_changes` (`t.py` 734-768).  `previousProcesses`
is the remembered `self.previous_processes` dictionary as an insertion-ordered
association list, `now` the value produced by `datetime.now().isoformat()`. -/
def detect_process_changes (previousProcesses : List (Nat × ProcInfo))
    (now : String) (currentProcesses : List ProcInfo) : ProcessChanges :=
  let current_pids := currentPidsOf currentProcesses
  let stopped := previousProcesses.filterMap fun kv =>
    if kv.1 ∈ current_pids then none
    else some { pid := kv.1, name := kv.2.name.getD "unknown",
                exe := kv.2.exe.getD "unknown",
                timestamp := now, stoppedAt := now }
  let started := currentProcesses.filterMap fun p =>
    match p.pid with
    | some n =>
        if n ≠ 0 ∧ n ∉ previousProcesses.map Prod.fst then
          some { pid := n, name := p.name.getD "unknown",
                 exe := p.exe.getD "unknown",
                 username := p.username.getD "unknown",
                 timestamp := now, startedAt := now }
        else none
    | none => none
  { started := started, stopped := stopped }

/-- Insertion into a Python dict rendered as an association list: an existing
key keeps its position and gets the new value, a new key is appended. -/
def dictInsert (k : Nat) (v : ProcInfo) : List (Nat × ProcInfo) → List (Nat × ProcInfo)
  | [] => [(k, v)]
  | kv :: rest => if kv.1 = k then (k, v) :: rest else kv :: dictInsert k v rest

/-- One step of the dict comprehension: an entry with a truthy pid is keyed
into the dictionary, any other entry is skipped. -/
def previousInsertStep (acc : List (Nat × ProcInfo)) (p : ProcInfo) : List (Nat × ProcInfo) :=
  match p.pid with
  | some n => if n ≠ 0 then dictInsert n p acc else acc
  | none => acc

/-- The dict comprehension updating `self.previous_processes` at the end of
`process_monitor_loop` (`t.py` 804-808):
`{proc.get('pid'): proc for proc in processes if proc.get('pid')}`. -/
def updatePreviousProcesses (currentProcesses : List ProcInfo) : List (Nat × ProcInfo) :=
  currentProcesses.foldl previousInsertStep []

/-- The entries the dict comprehension keeps, in list form (keyed, truthy
pids only).  Coincides with `updatePreviousProcesses` when the truthy pids
are pairwise distinct. -/
def keyedTruthyEntries (currentProcesses : List ProcInfo) : List (Nat × ProcInfo) :=
  currentProcesses.filterMap fun p =>
    match p.pid with
    | some n => if n ≠ 0 then some (n, p) else none
    | none => none

/-- The previous mapping `{1:"a", 2:"b"}` of the spec's worked example. -/
def prevExample : List (Nat × ProcInfo) :=
  [(1, { pid := some 1, name := some "a", exe := none, username := none }),
   (2, { pid := some 2, name := some "b", exe := none, username := none })]

/-- The current list `{2:"b", 3:"c"}` of the spec's worked example. -/
def curExample : List ProcInfo :=
  [{ pid := some 2, name := some "b", exe := none, username := none },
   { pid := some 3, name := some "c", exe := none, username := none }]

/-- A session directory on disk: its folder name (the session identifier,
`session_<timestamp>`) and the relative paths of the files inside it. -/
structure SessionFolder where
  name : String
  files : List String
  deriving DecidableEq

/-- The remote key used in `_upload_folder_to_b2` (`t.py` 249):
`remote_path = f"{folder_name}.zip"`. -/
def remote_path (folderName : String) : String :=
  folderName ++ ".zip"

/-- The archive member names produced by `_compress_folder_to_zip`
(`t.py` 203-211): every file is stored as
`f"{folder_path.name}/{relative_path}"`. -/
def compress_folder_to_zip (folder : SessionFolder) : List String :=
  folder.files.map fun rel => folder.name ++ "/" ++ rel

/-- Outcomes of the collaborator calls made during one upload attempt:
whether zip creation, the remote transfer, `shutil.rmtree` on the session
directory and `Path.unlink` on the archive succeed. -/
structure UploadEnv where
  compressOk : Bool
  transferOk : Bool
  rmtreeOk : Bool
  unlinkOk : Bool
  deriving DecidableEq

/-- Result of `_upload_folder_to_b2`: the returned boolean together with the
observable local state it leaves behind and the remote key it used (if the
transfer step was reached). -/
structure UploadResult where
  success : Bool
  folderExists : Bool
  zipExists : Bool
  attemptedKey : Option String
  deriving DecidableEq

/-- `TimeTracker._upload_folder_to_b2` (`t.py` 223-290), with the B2 api and
bucket initialized.  Step 1 compresses (failure returns `False` with the
directory untouched and no zip); step 2 uploads under `remote_path`
(failure unlinks the zip, keeps the directory, returns `False`); step 3
deletes directory and zip inside their own `try`/`except` blocks whose
failures are only printed, then returns `True`. -/
def upload_folder_to_b2 (env : UploadEnv) (folder : SessionFolder) : UploadResult :=
  if env.compressOk = false then
    { success := false, folderExists := true, zipExists := false, attemptedKey := none }
  else if env.transferOk then
    { success := true, folderExists := !env.rmtreeOk, zipExists := !env.unlinkOk,
      attemptedKey := some (remote_path folder.name) }
  else
    { success := false, folderExists := true, zipExists := !env.unlinkOk,
      attemptedKey := some (remote_path folder.name) }

/-- One iteration of `b2_upload_worker` (`t.py` 849-871) once a folder name
has been dequeued: a vanished folder is skipped, otherwise the folder is
uploaded; in every case the loop continues with the rest of the queue and
never re-enqueues the folder. -/
def b2_upload_worker_step (env : UploadEnv) (onDisk : List SessionFolder)
    (queued : List String) : List String × Option UploadResult :=
  match queued with
  | [] => ([], none)
  | f :: rest =>
    match onDisk.find? (fun s => s.name == f) with
    | none => (rest, none)
    | some folder => (rest, some (upload_folder_to_b2 env folder))

namespace TimeTracker

/-- First-match association-list lookup (Python path existence and file
contents are modelled with association lists keyed by session timestamp). -/
def lookupKey {α : Type} (k : Nat) : List (Nat × α) → Option α
  | [] => none
  | kv :: rest => if kv.1 = k then some kv.2 else lookupKey k rest

/-- `Path.exists()` for a session directory: the timestamp is a key of the
on-disk listing. -/
def diskHas (disk : List (Nat × Nat)) (f : Nat) : Bool :=
  (lookupKey f disk).isSome

/-- `_get_folder_size` (`t.py` 153-162): total size in bytes of a session
directory, `0` if it is gone. -/
def get_folder_size (disk : List (Nat × Nat)) (f : Nat) : Nat :=
  (lookupKey f disk).getD 0

/-- `Path.mkdir(parents=True, exist_ok=True)` for a fresh session directory
of size `0`. -/
def mkdirSession (disk : List (Nat × Nat)) (f : Nat) : List (Nat × Nat) :=
  if diskHas disk f then disk else disk ++ [(f, 0)]

/-- Append one serialized line to a session's log file, creating the file on
first write (`open(path, 'a')`). -/
def appendLine : List (Nat × List Nat) → Nat → Nat → List (Nat × List Nat)
  | [], p, r => [(p, [r])]
  | kv :: rest, p, r =>
      if kv.1 = p then (kv.1, kv.2 ++ [r]) :: rest else kv :: appendLine rest p r

/-- Grow the recorded byte size of session `p` after an append. -/
def bumpSize (disk : List (Nat × Nat)) (p : Nat) : List (Nat × Nat) :=
  disk.map fun kv => if kv.1 = p then (kv.1, kv.2 + 1) else kv

/-- The `TimeTracker` fields relevant to the session lifecycle, the two
writer threads and the upload queue.  Session directories are identified by
their creation timestamp (a `Nat`).  `writerPc` / `processWriterPc` hold a
resolved `(session, record)` pair between a writer's call to
`_get_events_file` / `_get_processes_file` (made under the session lock) and
its subsequent file append (made after the lock is released).  `nextId` is a
strict upper bound on every timestamp observed so far; `stopDone` is a
history flag recording whether `stop()` has run. -/
structure TrackerState where
  uploadToB2 : Bool
  running : Bool
  currentSessionDir : Option Nat
  previousSessionDir : Option Nat
  sessionStartTime : Option Nat
  folderRotationInterval : Nat
  folderMaxSizeBytes : Nat
  disk : List (Nat × Nat)
  eventsFiles : List (Nat × List Nat)
  processesFiles : List (Nat × List Nat)
  eventQueue : List Nat
  processQueue : List Nat
  writerPc : Option (Nat × Nat)
  processWriterPc : Option (Nat × Nat)
  completedFoldersQueue : List Nat
  nextId : Nat
  stopDone : Bool
  deriving DecidableEq

/-- `TimeTracker._create_new_session_folder` (`t.py` 292-318), called with
the fresh timestamp `now`: first the *previous* session directory is queued
for upload (if it is set, still exists, and upload is enabled), then the new
directory is created, `previous_session_dir` becomes the old current and the
new directory becomes current. -/
def create_new_session_folder (now : Nat) (st : TrackerState) : TrackerState :=
  let queue' :=
    match st.previousSessionDir with
    | some p =>
        if diskHas st.disk p && st.uploadToB2 then st.completedFoldersQueue ++ [p]
        else st.completedFoldersQueue
    | none => st.completedFoldersQueue
  { st with
      completedFoldersQueue := queue',
      disk := mkdirSession st.disk now,
      previousSessionDir := st.currentSessionDir,
      currentSessionDir := some now,
      sessionStartTime := some now,
      nextId := now + 1 }

/-- `TimeTracker._check_and_rotate_folder` (`t.py` 320-351), body of the
critical section: missing directory, elapsed time `≥ interval`, or size
`≥ threshold` trigger `_create_new_session_folder`; an unset
`session_start_time` is re-initialized to `now`. -/
def check_and_rotate_folder (now : Nat) (st : TrackerState) : TrackerState :=
  match st.currentSessionDir with
  | none => create_new_session_folder now st
  | some c =>
    if diskHas st.disk c = false then create_new_session_folder now st
    else
      match st.sessionStartTime with
      | none => { st with sessionStartTime := some now }
      | some t0 =>
        if st.folderRotationInterval ≤ now - t0 then create_new_session_folder now st
        else if st.folderMaxSizeBytes ≤ get_folder_size st.disk c then
          create_new_session_folder now st
        else st

/-- `TimeTracker._ensure_session_folder_exists` (`t.py` 353-360); the
screenshots subdirectory is outside the modelled state. -/
def ensure_session_folder_exists (now : Nat) (st : TrackerState) : TrackerState :=
  match st.currentSessionDir with
  | none => create_new_session_folder now st
  | some c => if diskHas st.disk c = false then create_new_session_folder now st else st

/-- `TimeTracker._get_events_file` (`t.py` 371-376): under the session lock,
check rotation, ensure the directory exists, and return the current
`events.jsonl` path (identified by its session timestamp). -/
def get_events_file (now : Nat) (st : TrackerState) : TrackerState × Option Nat :=
  let st1 := check_and_rotate_folder now st
  let st2 := ensure_session_folder_exists now st1
  (st2, st2.currentSessionDir)

/-- `TimeTracker._get_processes_file` (`t.py` 378-383); identical to
`get_events_file` except for the file it designates. -/
def get_processes_file (now : Nat) (st : TrackerState) : TrackerState × Option Nat :=
  let st1 := check_and_rotate_folder now st
  let st2 := ensure_session_folder_exists now st1
  (st2, st2.currentSessionDir)

/-- `TimeTracker._queue_existing_folders_for_upload` (`t.py` 164-184): every
session directory other than the current one is collected, then enqueued in
sorted name order (timestamp names sort like their numbers); each is
re-checked for existence just before being enqueued. -/
def queue_existing_folders_for_upload (st : TrackerState) : TrackerState :=
  let sessionFolders := (st.disk.map Prod.fst).filter
    (fun n => decide (some n ≠ st.currentSessionDir))
  let sortedFolders := sessionFolders.insertionSort (· ≤ ·)
  let queued := sortedFolders.filter (fun f => diskHas st.disk f)
  { st with completedFoldersQueue := st.completedFoldersQueue ++ queued }

/-- `TimeTracker.stop` (`t.py` 925-957): a no-op unless running; otherwise
clears `running` and queues the *current* session directory for upload when
upload is enabled and the directory exists. -/
def stop (st : TrackerState) : TrackerState :=
  if st.running = false then st
  else
    let st1 := { st with running := false, stopDone := true }
    match st1.currentSessionDir with
    | some c =>
        if st1.uploadToB2 && diskHas st1.disk c then
          { st1 with completedFoldersQueue := st1.completedFoldersQueue ++ [c] }
        else st1
    | none => st1

/-- `TimeTracker.__init__` (`t.py` 59-151) restricted to the modelled
fields: `leftovers` is the data directory's pre-existing content (session
directories from earlier runs with their sizes), `now0` the startup
timestamp, `uploadEnabled` the effective value of `self.upload_to_b2` after
credential checks and B2 initialization.  The first session folder is
created, then (if upload is enabled) leftover folders are queued. -/
def initBase (uploadEnabled : Bool) (rotInterval maxBytes : Nat)
    (leftovers : List (Nat × Nat)) (now0 : Nat) : TrackerState :=
  { uploadToB2 := uploadEnabled, running := false,
    currentSessionDir := none, previousSessionDir := none,
    sessionStartTime := none,
    folderRotationInterval := rotInterval, folderMaxSizeBytes := maxBytes,
    disk := leftovers, eventsFiles := [], processesFiles := [],
    eventQueue := [], processQueue := [],
    writerPc := none, processWriterPc := none,
    completedFoldersQueue := [], nextId := now0, stopDone := false }

def initTracker (uploadEnabled : Bool) (rotInterval maxBytes : Nat)
    (leftovers : List (Nat × Nat)) (now0 : Nat) : TrackerState :=
  let st1 := create_new_session_folder now0
    (initBase uploadEnabled rotInterval maxBytes leftovers now0)
  if uploadEnabled then queue_existing_folders_for_upload st1 else st1

/-- The event writer's body (`t.py` 821-832) up to and including the path
resolution: the record `r` has been taken off `event_queue` (leaving `rest`),
`_get_events_file` runs under the session lock (possibly rotating), and the
resolved `(session, record)` pair is held by the thread until the append. -/
def resolveEventStep (now r : Nat) (rest : List Nat) (st : TrackerState) : TrackerState :=
  let res := get_events_file now { st with eventQueue := rest }
  match res.2 with
  | some p => { res.1 with writerPc := some (p, r) }
  | none => res.1

/-- The event writer's append (`t.py` 827-828), performed after the session
lock is released: one line is appended to the resolved session's
`events.jsonl` if that directory still exists; otherwise `open` raises, the
error is printed and the record is dropped. -/
def writeEventStep (p r : Nat) (st : TrackerState) : TrackerState :=
  if diskHas st.disk p then
    { st with eventsFiles := appendLine st.eventsFiles p r,
              disk := bumpSize st.disk p, writerPc := none }
  else { st with writerPc := none }

/-- The process writer's path resolution (`t.py` 834-843), symmetric to
`resolveEventStep`. -/
def resolveProcessStep (now r : Nat) (rest : List Nat) (st : TrackerState) : TrackerState :=
  let res := get_processes_file now { st with processQueue := rest }
  match res.2 with
  | some p => { res.1 with processWriterPc := some (p, r) }
  | none => res.1

/-- The process writer's append, symmetric to `writeEventStep`. -/
def writeProcessStep (p r : Nat) (st : TrackerState) : TrackerState :=
  if diskHas st.disk p then
    { st with processesFiles := appendLine st.processesFiles p r,
              disk := bumpSize st.disk p, processWriterPc := none }
  else { st with processWriterPc := none }

/-- One dequeue by `b2_upload_worker` (`t.py` 849-871) at machine level: the
folder leaves the queue and is never re-enqueued; `removed` tells whether
the attempt ended with the local directory deleted (upload and `rmtree`
both succeeded). -/
def uploadDequeueStep (f : Nat) (rest : List Nat) (removed : Bool) (st : TrackerState) :
    TrackerState :=
  { st with completedFoldersQueue := rest,
            disk := if removed then st.disk.filter (fun kv => decide (kv.1 ≠ f)) else st.disk }

/-- Interleaving semantics of the running agent: each constructor is one
atomic action of one thread, as fine-grained as the locking in `t.py`
(path resolution happens under the session lock, the file append after it).
`now` arguments carry the clock reading of steps that consult
`datetime.now()`, constrained only to be fresh (`st.nextId ≤ now`). -/
inductive Step : TrackerState → TrackerState → Prop where
  | startCall (st : TrackerState) (h : st.running = false) :
      Step st { st with running := true }
  | log_event (st : TrackerState) (r : Nat) :
      Step st { st with eventQueue := st.eventQueue ++ [r] }
  | log_processes (st : TrackerState) (r : Nat) :
      Step st { st with processQueue := st.processQueue ++ [r] }
  | event_writer_resolve (st : TrackerState) (now r : Nat) (rest : List Nat)
      (hq : st.eventQueue = r :: rest) (hpc : st.writerPc = none)
      (hnow : st.nextId ≤ now) :
      Step st (resolveEventStep now r rest st)
  | event_writer_append (st : TrackerState) (p r : Nat)
      (hpc : st.writerPc = some (p, r)) :
      Step st (writeEventStep p r st)
  | process_writer_resolve (st : TrackerState) (now r : Nat) (rest : List Nat)
      (hq : st.processQueue = r :: rest) (hpc : st.processWriterPc = none)
      (hnow : st.nextId ≤ now) :
      Step st (resolveProcessStep now r rest st)
  | process_writer_append (st : TrackerState) (p r : Nat)
      (hpc : st.processWriterPc = some (p, r)) :
      Step st (writeProcessStep p r st)
  | rotate_access (st : TrackerState) (now : Nat) (hnow : st.nextId ≤ now) :
      Step st (check_and_rotate_folder now st)
  | stop_call (st : TrackerState) :
      Step st (stop st)
  | upload_dequeue (st : TrackerState) (f : Nat) (rest : List Nat) (removed : Bool)
      (hq : st.completedFoldersQueue = f :: rest) :
      Step st (uploadDequeueStep f rest removed st)

/-- States the agent can reach from a given start state. -/
def Reachable (s t : TrackerState) : Prop :=
  Relation.ReflTransGen Step s t

end TimeTracker

namespace TimeTracker

/-- Contents of one session's log file (`events.jsonl` / `processes.jsonl`),
empty if never written. -/
def fileLines (files : List (Nat × List Nat)) (p : Nat) : List Nat :=
  (lookupKey p files).getD []

/-- Claim C1 as stated: on every rotation performed in a reachable state
while upload is enabled, the session that was Active immediately before the
rotation is on the upload queue when `_create_new_session_folder` returns,
provided it is non-empty — and the rotation enqueues nothing else. -/
def claimC1 : Prop :=
  ∀ (uploadEnabled : Bool) (ri mb now0 : Nat) (leftovers : List (Nat × Nat))
    (st : TrackerState) (now c : Nat),
    Reachable (initTracker uploadEnabled ri mb leftovers now0) st →
    st.uploadToB2 = true →
    st.nextId ≤ now →
    st.currentSessionDir = some c →
    0 < get_folder_size st.disk c →
    c ∈ (create_new_session_folder now st).completedFoldersQueue ∧
    ∀ x ∈ (create_new_session_folder now st).completedFoldersQueue,
      x ∈ st.completedFoldersQueue ∨ x = c

/-- Claim C2 as stated: in every reachable state, a record a writer has
dequeued and resolved (the pending `(session, record)` pair) is about to be
appended to the session that is current at that instant; equivalently, the
resolved target always coincides with the current session, so no append can
land in a sealed session. -/
def claimC2 : Prop :=
  ∀ (uploadEnabled : Bool) (ri mb now0 : Nat) (leftovers : List (Nat × Nat))
    (st : TrackerState),
    Reachable (initTracker uploadEnabled ri mb leftovers now0) st →
    (∀ p r, st.writerPc = some (p, r) → st.currentSessionDir = some p) ∧
    (∀ p r, st.processWriterPc = some (p, r) → st.currentSessionDir = some p)

/-- Claim C3 as stated: in every reachable state (shutdown included), the
upload queue never contains the currently Active session directory. -/
def claimC3 : Prop :=
  ∀ (uploadEnabled : Bool) (ri mb now0 : Nat) (leftovers : List (Nat × Nat))
    (st : TrackerState) (c : Nat),
    Reachable (initTracker uploadEnabled ri mb leftovers now0) st →
    st.currentSessionDir = some c →
    c ∉ st.completedFoldersQueue

/-- Inductive invariant for the tracker machine: every session identifier
stored in the state is a past timestamp (`< nextId`), and — as long as
`stop()` has not run — the upload queue never holds the current session. -/
def Inv (st : TrackerState) : Prop :=
  (∀ x ∈ st.completedFoldersQueue, x < st.nextId) ∧
  (∀ c, st.currentSessionDir = some c → c < st.nextId) ∧
  (∀ p, st.previousSessionDir = some p → p < st.nextId) ∧
  (∀ kv ∈ st.disk, kv.1 < st.nextId) ∧
  (st.stopDone = false → ∀ c, st.currentSessionDir = some c → c ∉ st.completedFoldersQueue)

/-- A concrete tracker state in which the event writer holds a resolved
`(session 0, record 5)` pair; used to instantiate theorems with hypotheses. -/
def sampleResolvedState : TrackerState :=
  { uploadToB2 := false, running := true,
    currentSessionDir := some 0, previousSessionDir := none,
    sessionStartTime := some 0,
    folderRotationInterval := 180, folderMaxSizeBytes := 10485760,
    disk := [(0, 0)], eventsFiles := [], processesFiles := [],
    eventQueue := [], processQueue := [],
    writerPc := some (0, 5), processWriterPc := some (0, 6),
    completedFoldersQueue := [], nextId := 1, stopDone := false }

/-- A concrete tracker state whose current session directory has vanished
from disk; used to instantiate the corruption-recovery theorem. -/
def sampleMissingDirState : TrackerState :=
  { uploadToB2 := false, running := true,
    currentSessionDir := some 3, previousSessionDir := none,
    sessionStartTime := some 3,
    folderRotationInterval := 180, folderMaxSizeBytes := 10485760,
    disk := [], eventsFiles := [], processesFiles := [],
    eventQueue := [], processQueue := [],
    writerPc := none, processWriterPc := none,
    completedFoldersQueue := [], nextId := 4, stopDone := false }

end TimeTracker

/-- Claim C4 as stated, quantified over every previous mapping and every
current process list: exactly one stopped record per pid present in the
previous mapping but absent from the current list, exactly one started
record per pid present in the current list but absent from the previous
mapping, and the remembered mapping becomes the current list keyed by pid. -/
def claimC4 : Prop :=
  ∀ (prev : List (Nat × ProcInfo)) (now : String) (cur : List ProcInfo),
    (∀ n : Nat,
      ((detect_process_changes prev now cur).stopped.map StoppedRecord.pid).count n =
        if n ∈ prev.map Prod.fst ∧ n ∉ listPids cur then 1 else 0) ∧
    (∀ n : Nat,
      ((detect_process_changes prev now cur).started.map StartedRecord.pid).count n =
        if n ∈ listPids cur ∧ n ∉ prev.map Prod.fst then 1 else 0) ∧
    updatePreviousProcesses cur = cur.filterMap (fun p => p.pid.map (fun n => (n, p)))

/-- C9: the remote key is the session folder name with the fixed `.zip`
suffix — a deterministic function of the session identifier alone, so two
uploads of sessions with the same identifier target the same key — and every
archive member lies under the single top-level folder named with the session
identifier. -/
theorem upload_key_and_archive_layout :
    ∀ (env1 env2 : UploadEnv) (f1 f2 : SessionFolder),
      f1.name = f2.name →
      env1.compressOk = true → env2.compressOk = true →
      (upload_folder_to_b2 env1 f1).attemptedKey = some (remote_path f1.name) ∧
      (upload_folder_to_b2 env1 f1).attemptedKey = (upload_folder_to_b2 env2 f2).attemptedKey ∧
      ∀ e ∈ compress_folder_to_zip f1, ∃ rel ∈ f1.files, e = f1.name ++ "/" ++ rel := by
  intro env1 env2 f1 f2 hname h1 h2
  refine ⟨?_, ?_, ?_⟩
  · cases henv : env1.transferOk <;> simp [upload_folder_to_b2, h1, henv]
  · cases henv1 : env1.transferOk <;> cases henv2 : env2.transferOk <;>
      simp [upload_folder_to_b2, h1, h2, henv1, henv2, hname]
  · intro e he
    simp only [compress_folder_to_zip, List.mem_map] at he
    obtain ⟨rel, hrel, hrel2⟩ := he
    exact ⟨rel, hrel, hrel2.symm⟩

/-- Witness for `upload_key_and_archive_layout` at a concrete session. -/
theorem upload_key_and_archive_layout_witness :
    (({ name := "session_20250101_000000", files := ["events.jsonl"] } : SessionFolder).name =
      ({ name := "session_20250101_000000", files := [] } : SessionFolder).name) ∧
    (UploadEnv.compressOk ⟨true, true, true, true⟩ = true) ∧
    (UploadEnv.compressOk ⟨true, false, true, true⟩ = true) ∧
    ((upload_folder_to_b2 ⟨true, true, true, true⟩
        { name := "session_20250101_000000", files := ["events.jsonl"] }).attemptedKey =
        some (remote_path "session_20250101_000000") ∧
      (upload_folder_to_b2 ⟨true, true, true, true⟩
        { name := "session_20250101_000000", files := ["events.jsonl"] }).attemptedKey =
      (upload_folder_to_b2 ⟨true, false, true, true⟩
        { name := "session_20250101_000000", files := [] }).attemptedKey ∧
      ∀ e ∈ compress_folder_to_zip
          { name := "session_20250101_000000", files := ["events.jsonl"] },
        ∃ rel ∈ ({ name := "session_20250101_000000",
                   files := ["events.jsonl"] } : SessionFolder).files,
          e = "session_20250101_000000" ++ "/" ++ rel) :=
  ⟨rfl, rfl, rfl,
    upload_key_and_archive_layout ⟨true, true, true, true⟩ ⟨true, false, true, true⟩
      { name := "session_20250101_000000", files := ["events.jsonl"] }
      { name := "session_20250101_000000", files := [] } rfl rfl rfl⟩

/-- C7: when the remote transfer succeeds, both local deletions are
attempted (the directory survives exactly when `rmtree` fails, the archive
exactly when `unlink` fails) and the routine reports success regardless of
either deletion's outcome. -/
theorem upload_success_despite_deletion_failures :
    ∀ (env : UploadEnv) (folder : SessionFolder),
      env.compressOk = true → env.transferOk = true →
      (upload_folder_to_b2 env folder).success = true ∧
      (upload_folder_to_b2 env folder).folderExists = !env.rmtreeOk ∧
      (upload_folder_to_b2 env folder).zipExists = !env.unlinkOk := by
  intro env folder h1 h2
  simp [upload_folder_to_b2, h1, h2]

/-- Witness for `upload_success_despite_deletion_failures` with both
deletions failing. -/
theorem upload_success_despite_deletion_failures_witness :
    (UploadEnv.compressOk ⟨true, true, false, false⟩ = true) ∧
    (UploadEnv.transferOk ⟨true, true, false, false⟩ = true) ∧
    ((upload_folder_to_b2 ⟨true, true, false, false⟩
        { name := "session_A", files := [] }).success = true ∧
      (upload_folder_to_b2 ⟨true, true, false, false⟩
        { name := "session_A", files := [] }).folderExists = !(false : Bool) ∧
      (upload_folder_to_b2 ⟨true, true, false, false⟩
        { name := "session_A", files := [] }).zipExists = !(false : Bool)) :=
  ⟨rfl, rfl,
    upload_success_despite_deletion_failures ⟨true, true, false, false⟩
      { name := "session_A", files := [] } rfl rfl⟩

/-- C6: when the transfer fails after a successful compression, the attempt
deletes the local archive, leaves the session directory in place, returns
failure, and the worker iteration moves on to the rest of the queue without
re-enqueueing the session. -/
theorem upload_failure_leaves_folder_not_requeued :
    ∀ (env : UploadEnv) (folder : SessionFolder) (onDisk : List SessionFolder)
      (rest : List String),
      env.compressOk = true → env.transferOk = false → env.unlinkOk = true →
      onDisk.find? (fun s => s.name == folder.name) = some folder →
      folder.name ∉ rest →
      (upload_folder_to_b2 env folder).success = false ∧
      (upload_folder_to_b2 env folder).folderExists = true ∧
      (upload_folder_to_b2 env folder).zipExists = false ∧
      b2_upload_worker_step env onDisk (folder.name :: rest) =
        (rest, some (upload_folder_to_b2 env folder)) ∧
      folder.name ∉ (b2_upload_worker_step env onDisk (folder.name :: rest)).1 := by
  intro env folder onDisk rest h1 h2 h3 hfind hrest
  refine ⟨?_, ?_, ?_, ?_, ?_⟩
  · simp [upload_folder_to_b2, h1, h2]
  · simp [upload_folder_to_b2, h1, h2]
  · simp [upload_folder_to_b2, h1, h2, h3]
  · simp [b2_upload_worker_step, hfind]
  · simp [b2_upload_worker_step, hfind]
    exact hrest

/-- Witness for `upload_failure_leaves_folder_not_requeued` at a concrete
queue. -/
theorem upload_failure_leaves_folder_not_requeued_witness :
    (UploadEnv.compressOk ⟨true, false, true, true⟩ = true) ∧
    (UploadEnv.transferOk ⟨true, false, true, true⟩ = false) ∧
    (UploadEnv.unlinkOk ⟨true, false, true, true⟩ = true) ∧
    ([({ name := "session_B", files := ["x"] } : SessionFolder)].find?
        (fun s => s.name == "session_B") =
      some { name := "session_B", files := ["x"] }) ∧
    ("session_B" ∉ ["session_C"]) ∧
    ((upload_folder_to_b2 ⟨true, false, true, true⟩
        { name := "session_B", files := ["x"] }).success = false ∧
      (upload_folder_to_b2 ⟨true, false, true, true⟩
        { name := "session_B", files := ["x"] }).folderExists = true ∧
      (upload_folder_to_b2 ⟨true, false, true, true⟩
        { name := "session_B", files := ["x"] }).zipExists = false ∧
      b2_upload_worker_step ⟨true, false, true, true⟩
          [{ name := "session_B", files := ["x"] }] ("session_B" :: ["session_C"]) =
        (["session_C"], some (upload_folder_to_b2 ⟨true, false, true, true⟩
          { name := "session_B", files := ["x"] })) ∧
      "session_B" ∉ (b2_upload_worker_step ⟨true, false, true, true⟩
          [{ name := "session_B", files := ["x"] }] ("session_B" :: ["session_C"])).1) :=
  ⟨rfl, rfl, rfl, by decide, by decide,
    upload_failure_leaves_folder_not_requeued ⟨true, false, true, true⟩
      { name := "session_B", files := ["x"] } [{ name := "session_B", files := ["x"] }]
      ["session_C"] rfl rfl rfl (by decide) (by decide)⟩

theorem ne_zero_of_mem_currentPidsOf {n : Nat} {cur : List ProcInfo}
    (h : n ∈ currentPidsOf cur) : n ≠ 0 := by
  simp only [currentPidsOf, List.mem_filterMap] at h
  obtain ⟨p, _, hp⟩ := h
  cases hpid : p.pid with
  | none => rw [hpid] at hp; cases hp
  | some m =>
    rw [hpid] at hp
    by_cases hm : m = 0
    · simp [hm] at hp
    · simp [hm] at hp
      omega

theorem stopped_pids_eq (prev : List (Nat × ProcInfo)) (now : String) (cur : List ProcInfo) :
    (detect_process_changes prev now cur).stopped.map StoppedRecord.pid =
      (prev.map Prod.fst).filter (fun n => decide (n ∉ currentPidsOf cur)) := by
  induction prev with
  | nil => rfl
  | cons kv rest ih =>
    simp only [detect_process_changes, List.filterMap_cons, List.map_cons, List.filter_cons] at ih ⊢
    by_cases h : kv.1 ∈ currentPidsOf cur
    · simpa [h] using ih
    · simpa [h] using ih

theorem started_pids_eq (prev : List (Nat × ProcInfo)) (now : String) (cur : List ProcInfo) :
    (detect_process_changes prev now cur).started.map StartedRecord.pid =
      (currentPidsOf cur).filter (fun n => decide (n ∉ prev.map Prod.fst)) := by
  induction cur with
  | nil => rfl
  | cons p rest ih =>
    simp only [detect_process_changes, currentPidsOf, List.filterMap_cons] at ih ⊢
    cases hpid : p.pid with
    | none => simpa [hpid] using ih
    | some n =>
      by_cases hn : n = 0
      · simpa [hpid, hn] using ih
      · by_cases hmem : n ∈ prev.map Prod.fst
        · simpa [hpid, hn, hmem] using ih
        · simpa [hpid, hn, hmem] using ih

theorem count_filter_of_nodup (l : List Nat) (p : Nat → Bool) (hl : l.Nodup) (n : Nat) :
    (l.filter p).count n = if n ∈ l ∧ p n = true then 1 else 0 := by
  by_cases h : n ∈ l ∧ p n = true
  · rw [if_pos h]
    exact List.count_eq_one_of_mem (hl.filter p) (List.mem_filter.mpr ⟨h.1, h.2⟩)
  · rw [if_neg h, List.count_eq_zero]
    intro hc
    exact h ⟨(List.mem_filter.mp hc).1, (List.mem_filter.mp hc).2⟩

/-- C10: entries whose pid is missing or `0` are excluded from change
detection entirely — they are never reported as started or stopped and are
never stored in the remembered mapping (Python truthiness of
`proc.get('pid')` is the filter).  The hypothesis that the previous mapping
holds no zero key is the invariant the monitor loop maintains, since the
mapping is always rebuilt through the same truthiness filter. -/
theorem falsy_pid_excluded :
    ∀ (prev : List (Nat × ProcInfo)) (now : String) (cur : List ProcInfo),
      (∀ k ∈ prev.map Prod.fst, k ≠ 0) →
      (∀ r ∈ (detect_process_changes prev now cur).started, r.pid ≠ 0) ∧
      (∀ r ∈ (detect_process_changes prev now cur).stopped, r.pid ≠ 0) ∧
      (∀ kv ∈ updatePreviousProcesses cur, kv.1 ≠ 0) := by
  intro prev now cur hprev
  refine ⟨?_, ?_, ?_⟩
  · intro r hr
    have hmem : r.pid ∈ (detect_process_changes prev now cur).started.map StartedRecord.pid :=
      List.mem_map_of_mem _ hr
    rw [started_pids_eq] at hmem
    exact ne_zero_of_mem_currentPidsOf (List.mem_filter.mp hmem).1
  · intro r hr
    have hmem : r.pid ∈ (detect_process_changes prev now cur).stopped.map StoppedRecord.pid :=
      List.mem_map_of_mem _ hr
    rw [stopped_pids_eq] at hmem
    exact hprev _ (List.mem_filter.mp hmem).1
  · have haux : ∀ (l : List ProcInfo) (acc : List (Nat × ProcInfo)),
        (∀ kv ∈ acc, kv.1 ≠ 0) → ∀ kv ∈ l.foldl previousInsertStep acc, kv.1 ≠ 0 := by
      intro l
      induction l with
      | nil => intro acc hacc kv hkv; exact hacc kv hkv
      | cons p rest ih =>
        intro acc hacc kv hkv
        rw [List.foldl_cons] at hkv
        refine ih (previousInsertStep acc p) ?_ kv hkv
        intro kv' hkv'
        cases hpid : p.pid with
        | none => rw [previousInsertStep, hpid] at hkv'; exact hacc kv' hkv'
        | some n =>
          rw [previousInsertStep, hpid] at hkv'
          by_cases hn : n = 0
          · simp [hn] at hkv'
            exact hacc kv' hkv'
          · simp only [ne_eq, hn, not_false_eq_true, if_true] at hkv'
            have : kv' = (n, p) ∨ kv' ∈ acc := by
              clear hkv hacc
              induction acc with
              | nil => simpa [dictInsert] using hkv'
              | cons kv0 acc0 ih0 =>
                rw [dictInsert] at hkv'
                by_cases h0 : kv0.1 = n
                · rw [if_pos h0] at hkv'
                  rcases List.mem_cons.mp hkv' with h | h
                  · exact Or.inl h
                  · exact Or.inr (List.mem_cons_of_mem _ h)
                · rw [if_neg h0] at hkv'
                  rcases List.mem_cons.mp hkv' with h | h
                  · exact Or.inr (h ▸ List.mem_cons_self _ _)
                  · rcases ih0 h with h' | h'
                    · exact Or.inl h'
                    · exact Or.inr (List.mem_cons_of_mem _ h')
            rcases this with h | h
            · rw [h]; exact hn
            · exact hacc kv' h
    exact haux cur [] (by intro kv h; cases h)

/-- Witness for `falsy_pid_excluded` on a current list holding a missing
pid, pid `0` and pid `2`. -/
theorem falsy_pid_excluded_witness :
    (∀ k ∈ ([(1, ({ pid := some 1, name := some "a", exe := none, username := none } :
        ProcInfo))] : List (Nat × ProcInfo)).map Prod.fst, k ≠ 0) ∧
    ((∀ r ∈ (detect_process_changes
          [(1, { pid := some 1, name := some "a", exe := none, username := none })] "t"
          [{ pid := none, name := none, exe := none, username := none },
           { pid := some 0, name := some "idle", exe := none, username := none },
           { pid := some 2, name := some "b", exe := none, username := none }]).started,
        r.pid ≠ 0) ∧
      (∀ r ∈ (detect_process_changes
          [(1, { pid := some 1, name := some "a", exe := none, username := none })] "t"
          [{ pid := none, name := none, exe := none, username := none },
           { pid := some 0, name := some "idle", exe := none, username := none },
           { pid := some 2, name := some "b", exe := none, username := none }]).stopped,
        r.pid ≠ 0) ∧
      (∀ kv ∈ updatePreviousProcesses
          [{ pid := none, name := none, exe := none, username := none },
           { pid := some 0, name := some "idle", exe := none, username := none },
           { pid := some 2, name := some "b", exe := none, username := none }],
        kv.1 ≠ 0)) :=
  ⟨by decide,
    falsy_pid_excluded
      [(1, { pid := some 1, name := some "a", exe := none, username := none })] "t"
      [{ pid := none, name := none, exe := none, username := none },
       { pid := some 0, name := some "idle", exe := none, username := none },
       { pid := some 2, name := some "b", exe := none, username := none }]
      (by decide)⟩

theorem dictInsert_eq_append (k : Nat) (v : ProcInfo) (l : List (Nat × ProcInfo))
    (h : ∀ kv ∈ l, kv.1 ≠ k) : dictInsert k v l = l ++ [(k, v)] := by
  induction l with
  | nil => rfl
  | cons kv rest ih =>
    rw [dictInsert, if_neg (h kv (List.mem_cons_self _ _)),
      ih (fun kv' h' => h kv' (List.mem_cons_of_mem _ h')), List.cons_append]

theorem updatePrev_foldl_eq (cur : List ProcInfo) :
    ∀ acc : List (Nat × ProcInfo),
      (currentPidsOf cur).Nodup →
      (∀ kv ∈ acc, ∀ n ∈ currentPidsOf cur, kv.1 ≠ n) →
      cur.foldl previousInsertStep acc = acc ++ keyedTruthyEntries cur := by
  induction cur with
  | nil => intro acc _ _; simp [keyedTruthyEntries]
  | cons p rest ih =>
    intro acc hnd hdisj
    rw [List.foldl_cons]
    cases hpid : p.pid with
    | none =>
      have hstep : previousInsertStep acc p = acc := by rw [previousInsertStep, hpid]
      have hcp : currentPidsOf (p :: rest) = currentPidsOf rest := by
        simp [currentPidsOf, List.filterMap_cons, hpid]
      rw [hstep, ih acc (by rw [hcp] at hnd; exact hnd)
        (fun kv hkv n hn => hdisj kv hkv n (by rw [hcp]; exact hn))]
      have : keyedTruthyEntries (p :: rest) = keyedTruthyEntries rest := by
        simp [keyedTruthyEntries, List.filterMap_cons, hpid]
      rw [this]
    | some n =>
      by_cases hn : n = 0
      · have hstep : previousInsertStep acc p = acc := by
          rw [previousInsertStep, hpid]; simp [hn]
        have hcp : currentPidsOf (p :: rest) = currentPidsOf rest := by
          simp [currentPidsOf, List.filterMap_cons, hpid, hn]
        rw [hstep, ih acc (by rw [hcp] at hnd; exact hnd)
          (fun kv hkv m hm => hdisj kv hkv m (by rw [hcp]; exact hm))]
        have : keyedTruthyEntries (p :: rest) = keyedTruthyEntries rest := by
          simp [keyedTruthyEntries, List.filterMap_cons, hpid, hn]
        rw [this]
      · have hcp : currentPidsOf (p :: rest) = n :: currentPidsOf rest := by
          simp [currentPidsOf, List.filterMap_cons, hpid, hn]
        rw [hcp] at hnd hdisj
        have hnmem : n ∉ currentPidsOf rest := (List.nodup_cons.mp hnd).1
        have hndrest : (currentPidsOf rest).Nodup := (List.nodup_cons.mp hnd).2
        have hstep : previousInsertStep acc p = acc ++ [(n, p)] := by
          rw [previousInsertStep, hpid]
          simp only [ne_eq, hn, not_false_eq_true, if_true]
          exact dictInsert_eq_append n p acc
            (fun kv hkv => hdisj kv hkv n (List.mem_cons_self _ _))
        rw [hstep, ih (acc ++ [(n, p)]) hndrest ?hdisj2]
        · have : keyedTruthyEntries (p :: rest) = (n, p) :: keyedTruthyEntries rest := by
            simp [keyedTruthyEntries, List.filterMap_cons, hpid, hn]
          rw [this, List.append_assoc, List.singleton_append]
        case hdisj2 =>
          intro kv hkv m hm
          rcases List.mem_append.mp hkv with h | h
          · exact hdisj kv h m (List.mem_cons_of_mem _ hm)
          · rw [List.mem_singleton.mp h]
            intro hcontra
            have hnm : n = m := hcontra
            exact hnmem (by rw [hnm]; exact hm)

/-- C4 (amended): over a previous mapping with distinct keys and a current
list whose truthy pids are distinct, the detector emits exactly one stopped
record per previous pid absent (as a truthy pid) from the current list,
exactly one started record per truthy current pid absent from the previous
mapping, and the remembered mapping is replaced by the truthy-pid entries of
the current list keyed by pid. -/
theorem process_diff_correct :
    ∀ (prev : List (Nat × ProcInfo)) (now : String) (cur : List ProcInfo),
      (prev.map Prod.fst).Nodup →
      (currentPidsOf cur).Nodup →
      (∀ n, ((detect_process_changes prev now cur).stopped.map StoppedRecord.pid).count n =
          if n ∈ prev.map Prod.fst ∧ n ∉ currentPidsOf cur then 1 else 0) ∧
      (∀ n, ((detect_process_changes prev now cur).started.map StartedRecord.pid).count n =
          if n ∈ currentPidsOf cur ∧ n ∉ prev.map Prod.fst then 1 else 0) ∧
      updatePreviousProcesses cur = keyedTruthyEntries cur := by
  intro prev now cur hprev hcur
  refine ⟨?_, ?_, ?_⟩
  · intro n
    rw [stopped_pids_eq, count_filter_of_nodup _ _ hprev n]
    by_cases h : n ∈ prev.map Prod.fst ∧ n ∉ currentPidsOf cur
    · rw [if_pos h, if_pos ⟨h.1, by simp [h.2]⟩]
    · rw [if_neg h, if_neg (by simpa using h)]
  · intro n
    rw [started_pids_eq, count_filter_of_nodup _ _ hcur n]
    by_cases h : n ∈ currentPidsOf cur ∧ n ∉ prev.map Prod.fst
    · rw [if_pos h, if_pos ⟨h.1, by simp [h.2]⟩]
    · rw [if_neg h, if_neg (by simpa using h)]
  · exact updatePrev_foldl_eq cur [] hcur (by intro kv hkv; cases hkv)

/-- C4 as stated is false: a current list containing the same pid twice
yields two started records for that pid, not exactly one (`detect_process_changes`
iterates over the raw current list, not over distinct pids). -/
theorem process_diff_counterexample : ¬ claimC4 := by
  intro h
  have h2 := (h [] "t"
    [{ pid := some 7, name := none, exe := none, username := none },
     { pid := some 7, name := none, exe := none, username := none }]).2.1 7
  exact absurd h2 (by decide)

/-- Witness for `process_diff_correct` on the spec's worked example:
exactly one stop for pid 1, exactly one start for pid 3, and the remembered
mapping becomes `{2:"b", 3:"c"}`. -/
theorem process_diff_correct_witness :
    (prevExample.map Prod.fst).Nodup ∧
    (currentPidsOf curExample).Nodup ∧
    ((detect_process_changes prevExample "t" curExample).stopped.map StoppedRecord.pid).count 1
      = 1 ∧
    ((detect_process_changes prevExample "t" curExample).started.map StartedRecord.pid).count 3
      = 1 ∧
    ((detect_process_changes prevExample "t" curExample).started.map StartedRecord.pid).count 2
      = 0 ∧
    updatePreviousProcesses curExample = keyedTruthyEntries curExample := by
  refine ⟨by decide, by decide, ?_, ?_, ?_, ?_⟩
  · rw [(process_diff_correct prevExample "t" curExample (by decide) (by decide)).1 1]
    decide
  · rw [(process_diff_correct prevExample "t" curExample (by decide) (by decide)).2.1 3]
    decide
  · rw [(process_diff_correct prevExample "t" curExample (by decide) (by decide)).2.1 2]
    decide
  · exact (process_diff_correct prevExample "t" curExample (by decide) (by decide)).2.2

namespace TimeTracker

theorem lookupKey_isSome_of_mem_keys {α : Type} (k : Nat) (l : List (Nat × α))
    (h : k ∈ l.map Prod.fst) : (lookupKey k l).isSome = true := by
  induction l with
  | nil => cases h
  | cons kv rest ih =>
    rw [lookupKey]
    by_cases hk : kv.1 = k
    · rw [if_pos hk]; rfl
    · rw [if_neg hk]
      rw [List.map_cons] at h
      rcases List.mem_cons.mp h with h' | h'
      · exact absurd h'.symm hk
      · exact ih h'

theorem lookupKey_eq_none {α : Type} (k : Nat) (l : List (Nat × α))
    (h : ∀ kv ∈ l, kv.1 ≠ k) : lookupKey k l = none := by
  induction l with
  | nil => rfl
  | cons kv rest ih =>
    rw [lookupKey, if_neg (h kv (List.mem_cons_self _ _))]
    exact ih (fun kv' h' => h kv' (List.mem_cons_of_mem _ h'))

/-- C5: at startup with upload enabled, every leftover session directory
(all of them predate the fresh session's timestamp) is enqueued for upload
in sorted name order, and a data directory holding only the newly created
active session results in an empty upload queue. -/
theorem startup_reconciliation_queues_leftovers :
    ∀ (ri mb now0 : Nat) (leftovers : List (Nat × Nat)),
      (∀ kv ∈ leftovers, kv.1 < now0) →
      (initTracker true ri mb leftovers now0).completedFoldersQueue =
        (leftovers.map Prod.fst).insertionSort (· ≤ ·) ∧
      List.Sorted (· ≤ ·) ((initTracker true ri mb leftovers now0).completedFoldersQueue) ∧
      (leftovers = [] → (initTracker true ri mb leftovers now0).completedFoldersQueue = []) := by
  intro ri mb now0 leftovers hl
  have hne : ∀ kv ∈ leftovers, kv.1 ≠ now0 := fun kv hkv => Nat.ne_of_lt (hl kv hkv)
  have hdisk : diskHas leftovers now0 = false := by
    rw [diskHas, lookupKey_eq_none now0 leftovers hne]
    rfl
  have hmain : (initTracker true ri mb leftovers now0).completedFoldersQueue =
      (leftovers.map Prod.fst).insertionSort (· ≤ ·) := by
    have hfilter : ((leftovers ++ [(now0, 0)]).map Prod.fst).filter
        (fun n => decide (some n ≠ some now0)) = leftovers.map Prod.fst := by
      rw [List.map_append, List.filter_append]
      have h1 : (leftovers.map Prod.fst).filter (fun n => decide (some n ≠ some now0)) =
          leftovers.map Prod.fst := by
        apply List.filter_eq_self.mpr
        intro a ha
        obtain ⟨kv, hkv, hfst⟩ := List.mem_map.mp ha
        simp only [decide_eq_true_eq, ne_eq, Option.some.injEq]
        rw [← hfst]
        exact hne kv hkv
      have h2 : (([(now0, 0)] : List (Nat × Nat)).map Prod.fst).filter
          (fun n => decide (some n ≠ some now0)) = [] := by
        simp
      rw [h1, h2, List.append_nil]
    have hqueued : ((leftovers.map Prod.fst).insertionSort (· ≤ ·)).filter
        (fun f => diskHas (leftovers ++ [(now0, 0)]) f) =
        (leftovers.map Prod.fst).insertionSort (· ≤ ·) := by
      apply List.filter_eq_self.mpr
      intro a ha
      have hmem : a ∈ leftovers.map Prod.fst :=
        ((List.perm_insertionSort (· ≤ ·) (leftovers.map Prod.fst)).mem_iff).mp ha
      apply lookupKey_isSome_of_mem_keys
      rw [List.map_append]
      exact List.mem_append.mpr (Or.inl hmem)
    simp only [initTracker, initBase, create_new_session_folder,
      queue_existing_folders_for_upload, mkdirSession, hdisk, Bool.false_eq_true,
      if_false, if_true, List.nil_append]
    rw [hfilter, hqueued]
  refine ⟨hmain, ?_, ?_⟩
  · rw [hmain]
    exact List.sorted_insertionSort (· ≤ ·) _
  · intro hnil
    rw [hmain, hnil]
    rfl

/-- Witness for `startup_reconciliation_queues_leftovers`: three leftover
sessions get enqueued in sorted order; re-instantiating with no leftovers
gives an empty queue. -/
theorem startup_reconciliation_witness :
    (∀ kv ∈ ([(3, 5), (1, 0), (2, 7)] : List (Nat × Nat)), kv.1 < 100) ∧
    ((initTracker true 180 10485760 [(3, 5), (1, 0), (2, 7)] 100).completedFoldersQueue =
        (([(3, 5), (1, 0), (2, 7)] : List (Nat × Nat)).map Prod.fst).insertionSort (· ≤ ·) ∧
      List.Sorted (· ≤ ·)
        ((initTracker true 180 10485760 [(3, 5), (1, 0), (2, 7)] 100).completedFoldersQueue) ∧
      (([(3, 5), (1, 0), (2, 7)] : List (Nat × Nat)) = [] →
        (initTracker true 180 10485760 [(3, 5), (1, 0), (2, 7)] 100).completedFoldersQueue =
          [])) :=
  ⟨by decide, startup_reconciliation_queues_leftovers 180 10485760 100
    [(3, 5), (1, 0), (2, 7)] (by decide)⟩

end TimeTracker

namespace TimeTracker

theorem diskHas_mkdirSession_self (disk : List (Nat × Nat)) (now : Nat) :
    diskHas (mkdirSession disk now) now = true := by
  by_cases h : diskHas disk now = true
  · rw [mkdirSession, if_pos h]
    exact h
  · rw [mkdirSession, if_neg h]
    exact lookupKey_isSome_of_mem_keys now _
      (by rw [List.map_append]; exact List.mem_append.mpr (Or.inr (by simp)))

/-- C8: when the current session directory is unset or missing on disk at
access time, the rotation check creates a new session at once, and both log
path accessors return a path inside the new, existing current session
instead of failing the caller. -/
theorem missing_session_dir_recovery :
    ∀ (now : Nat) (st : TrackerState),
      (∀ c, st.currentSessionDir = some c → diskHas st.disk c = false) →
      (check_and_rotate_folder now st).currentSessionDir = some now ∧
      diskHas (check_and_rotate_folder now st).disk now = true ∧
      (get_events_file now st).2 = some now ∧
      diskHas (get_events_file now st).1.disk now = true ∧
      (get_processes_file now st).2 = some now := by
  intro now st hmiss
  have hcreate_cur : (create_new_session_folder now st).currentSessionDir = some now := rfl
  have hcreate_disk : diskHas (create_new_session_folder now st).disk now = true :=
    diskHas_mkdirSession_self st.disk now
  have hcheck : check_and_rotate_folder now st = create_new_session_folder now st := by
    cases hcur : st.currentSessionDir with
    | none => simp [check_and_rotate_folder, hcur]
    | some c => simp [check_and_rotate_folder, hcur, hmiss c hcur]
  have hensure : ensure_session_folder_exists now (create_new_session_folder now st) =
      create_new_session_folder now st := by
    simp [ensure_session_folder_exists, hcreate_cur, hcreate_disk]
  refine ⟨?_, ?_, ?_, ?_, ?_⟩
  · rw [hcheck]; exact hcreate_cur
  · rw [hcheck]; exact hcreate_disk
  · simp only [get_events_file]
    rw [hcheck, hensure]
    exact hcreate_cur
  · simp only [get_events_file]
    rw [hcheck, hensure]
    exact hcreate_disk
  · simp only [get_processes_file]
    rw [hcheck, hensure]
    exact hcreate_cur

/-- Witness for `missing_session_dir_recovery`: a state whose current
session directory has vanished recovers at timestamp `7`. -/
theorem missing_session_dir_recovery_witness :
    (∀ c, sampleMissingDirState.currentSessionDir = some c →
      diskHas sampleMissingDirState.disk c = false) ∧
    ((check_and_rotate_folder 7 sampleMissingDirState).currentSessionDir = some 7 ∧
      diskHas (check_and_rotate_folder 7 sampleMissingDirState).disk 7 = true ∧
      (get_events_file 7 sampleMissingDirState).2 = some 7 ∧
      diskHas (get_events_file 7 sampleMissingDirState).1.disk 7 = true ∧
      (get_processes_file 7 sampleMissingDirState).2 = some 7) :=
  ⟨fun _ _ => rfl, missing_session_dir_recovery 7 sampleMissingDirState (fun _ _ => rfl)⟩

end TimeTracker

namespace TimeTracker

theorem create_queue_eq (now : Nat) (st : TrackerState) :
    (create_new_session_folder now st).completedFoldersQueue =
      st.completedFoldersQueue ++
        (match st.previousSessionDir with
         | some p => if diskHas st.disk p && st.uploadToB2 then [p] else []
         | none => []) := by
  cases hp : st.previousSessionDir with
  | none => simp [create_new_session_folder, hp]
  | some p =>
    by_cases hc : (diskHas st.disk p && st.uploadToB2) = true
    · simp [create_new_session_folder, hp, hc]
    · simp [create_new_session_folder, hp, hc]

/-- C1 (amended): a rotation does not enqueue the session it seals.  While
upload is enabled it enqueues exactly the session sealed by the *previous*
rotation (`previous_session_dir`), provided that directory still exists on
disk; the just-sealed session merely becomes `previous_session_dir`, to be
enqueued by the next rotation (or recovered by startup reconciliation). -/
theorem rotation_enqueues_previously_sealed :
    ∀ (now : Nat) (st : TrackerState),
      (create_new_session_folder now st).completedFoldersQueue =
        st.completedFoldersQueue ++
          (match st.previousSessionDir with
           | some p => if diskHas st.disk p && st.uploadToB2 then [p] else []
           | none => []) ∧
      (create_new_session_folder now st).previousSessionDir = st.currentSessionDir ∧
      (create_new_session_folder now st).currentSessionDir = some now :=
  fun now st => ⟨create_queue_eq now st, rfl, rfl⟩

/-- C1 as stated is false: in a run with upload enabled whose first session
received one event, the first rotation returns with an empty upload queue —
the non-empty session it just sealed is *not* enqueued (it is only stored in
`previous_session_dir`). -/
theorem rotation_enqueue_counterexample : ¬ claimC1 := by
  intro h
  have t1 : Reachable (initTracker true 180 10485760 [] 0)
      { initTracker true 180 10485760 [] 0 with running := true } :=
    Relation.ReflTransGen.single
      (Step.startCall (initTracker true 180 10485760 [] 0) (by decide))
  have t2 := t1.tail
    (Step.log_event { initTracker true 180 10485760 [] 0 with running := true } 42)
  have t3 := t2.tail (Step.event_writer_resolve _ 1 42 [] (by decide) (by decide) (by decide))
  have t4 := t3.tail (Step.event_writer_append _ 0 42 (by decide))
  have hc := h true 180 10485760 0 [] _ 200 0 t4 (by decide) (by decide) (by decide) (by decide)
  exact absurd hc.1 (by decide)

end TimeTracker

namespace TimeTracker

theorem check_current_exists (now : Nat) (st : TrackerState) :
    ∃ c, (check_and_rotate_folder now st).currentSessionDir = some c ∧
      diskHas (check_and_rotate_folder now st).disk c = true := by
  cases hcur : st.currentSessionDir with
  | none =>
    have he : check_and_rotate_folder now st = create_new_session_folder now st := by
      simp [check_and_rotate_folder, hcur]
    rw [he]
    exact ⟨now, rfl, diskHas_mkdirSession_self st.disk now⟩
  | some c =>
    by_cases h1 : diskHas st.disk c = false
    · have he : check_and_rotate_folder now st = create_new_session_folder now st := by
        simp [check_and_rotate_folder, hcur, h1]
      rw [he]
      exact ⟨now, rfl, diskHas_mkdirSession_self st.disk now⟩
    · have h1' : diskHas st.disk c = true := by
        revert h1; cases diskHas st.disk c <;> simp
      cases hst : st.sessionStartTime with
      | none =>
        have he : check_and_rotate_folder now st = { st with sessionStartTime := some now } := by
          simp [check_and_rotate_folder, hcur, h1, hst]
        rw [he]
        exact ⟨c, hcur, h1'⟩
      | some t0 =>
        by_cases h2 : st.folderRotationInterval ≤ now - t0
        · have he : check_and_rotate_folder now st = create_new_session_folder now st := by
            simp [check_and_rotate_folder, hcur, h1, hst, h2]
          rw [he]
          exact ⟨now, rfl, diskHas_mkdirSession_self st.disk now⟩
        · by_cases h3 : st.folderMaxSizeBytes ≤ get_folder_size st.disk c
          · have he : check_and_rotate_folder now st = create_new_session_folder now st := by
              simp [check_and_rotate_folder, hcur, h1, hst, h2, h3]
            rw [he]
            exact ⟨now, rfl, diskHas_mkdirSession_self st.disk now⟩
          · have he : check_and_rotate_folder now st = st := by
              simp [check_and_rotate_folder, hcur, h1, hst, h2, h3]
            rw [he]
            exact ⟨c, hcur, h1'⟩

theorem ensure_after_check (now : Nat) (st : TrackerState) :
    ensure_session_folder_exists now (check_and_rotate_folder now st) =
      check_and_rotate_folder now st := by
  obtain ⟨c, hc, hd⟩ := check_current_exists now st
  simp [ensure_session_folder_exists, hc, hd]

theorem fileLines_appendLine_self (files : List (Nat × List Nat)) (p r : Nat) :
    fileLines (appendLine files p r) p = fileLines files p ++ [r] := by
  induction files with
  | nil => simp [appendLine, fileLines, lookupKey]
  | cons kv rest ih =>
    by_cases h : kv.1 = p
    · simp [appendLine, fileLines, lookupKey, h]
    · simp only [appendLine, fileLines, lookupKey, h, if_false, if_neg h]
      exact ih

theorem fileLines_appendLine_other (files : List (Nat × List Nat)) (p r q : Nat)
    (hq : q ≠ p) : fileLines (appendLine files p r) q = fileLines files q := by
  have hpq : p ≠ q := Ne.symm hq
  induction files with
  | nil => simp [appendLine, fileLines, lookupKey, hpq]
  | cons kv rest ih =>
    by_cases h : kv.1 = p
    · simp [appendLine, fileLines, lookupKey, h, hpq]
    · by_cases hkq : kv.1 = q
      · simp [appendLine, fileLines, lookupKey, h, hkq, hq, hpq]
      · simp only [appendLine, fileLines, lookupKey, h, hkq, if_false, if_neg h, if_neg hkq]
        exact ih

/-- C2 (amended): a writer's append always lands in the session its path
resolution — performed under the session lock right after the dequeue —
returned, and that session is the current one *at resolution time*; the
append itself runs after the lock is released, so a rotation in between can
make it land in a session that is already sealed at the moment of the write
(see `writer_pc_counterexample`). -/
theorem writer_append_targets_resolved_session :
    (∀ (now r : Nat) (rest : List Nat) (st : TrackerState),
      ∃ p, (resolveEventStep now r rest st).writerPc = some (p, r) ∧
        (resolveEventStep now r rest st).currentSessionDir = some p) ∧
    (∀ (now r : Nat) (rest : List Nat) (st : TrackerState),
      ∃ p, (resolveProcessStep now r rest st).processWriterPc = some (p, r) ∧
        (resolveProcessStep now r rest st).currentSessionDir = some p) ∧
    (∀ (p r : Nat) (st : TrackerState),
      st.writerPc = some (p, r) → diskHas st.disk p = true →
      fileLines (writeEventStep p r st).eventsFiles p = fileLines st.eventsFiles p ++ [r] ∧
      ∀ q, q ≠ p →
        fileLines (writeEventStep p r st).eventsFiles q = fileLines st.eventsFiles q) ∧
    (∀ (p r : Nat) (st : TrackerState),
      st.processWriterPc = some (p, r) → diskHas st.disk p = true →
      fileLines (writeProcessStep p r st).processesFiles p =
        fileLines st.processesFiles p ++ [r] ∧
      ∀ q, q ≠ p →
        fileLines (writeProcessStep p r st).processesFiles q =
          fileLines st.processesFiles q) := by
  refine ⟨?_, ?_, ?_, ?_⟩
  · intro now r rest st
    obtain ⟨c, hc, _⟩ := check_current_exists now { st with eventQueue := rest }
    refine ⟨c, ?_, ?_⟩
    · simp only [resolveEventStep, get_events_file, ensure_after_check]
      rw [hc]
    · simp only [resolveEventStep, get_events_file, ensure_after_check]
      rw [hc]
  · intro now r rest st
    obtain ⟨c, hc, _⟩ := check_current_exists now { st with processQueue := rest }
    refine ⟨c, ?_, ?_⟩
    · simp only [resolveProcessStep, get_processes_file, ensure_after_check]
      rw [hc]
    · simp only [resolveProcessStep, get_processes_file, ensure_after_check]
      rw [hc]
  · intro p r st _ hd
    rw [writeEventStep, if_pos hd]
    exact ⟨fileLines_appendLine_self st.eventsFiles p r,
      fun q hq => fileLines_appendLine_other st.eventsFiles p r q hq⟩
  · intro p r st _ hd
    rw [writeProcessStep, if_pos hd]
    exact ⟨fileLines_appendLine_self st.processesFiles p r,
      fun q hq => fileLines_appendLine_other st.processesFiles p r q hq⟩

/-- Witness for `writer_append_targets_resolved_session`: in
`sampleResolvedState` the event writer holds `(session 0, record 5)`, the
directory exists, and the append adds the record to session 0's events file
only. -/
theorem writer_append_targets_resolved_session_witness :
    (sampleResolvedState.writerPc = some (0, 5)) ∧
    (diskHas sampleResolvedState.disk 0 = true) ∧
    (fileLines (writeEventStep 0 5 sampleResolvedState).eventsFiles 0 =
        fileLines sampleResolvedState.eventsFiles 0 ++ [5] ∧
      ∀ q, q ≠ 0 →
        fileLines (writeEventStep 0 5 sampleResolvedState).eventsFiles q =
          fileLines sampleResolvedState.eventsFiles q) :=
  ⟨rfl, by decide,
    writer_append_targets_resolved_session.2.2.1 0 5 sampleResolvedState rfl (by decide)⟩

/-- C2 as stated is false: after start, one enqueued event, its resolution
at time 1 and a time-based rotation at time 200, the event writer still
holds the pair `(session 0, record 7)` while the current session is the one
created at time 200 — the pending append lands in the sealed session 0. -/
theorem writer_pc_counterexample : ¬ claimC2 := by
  intro h
  have t1 : Reachable (initTracker false 180 10485760 [] 0)
      { initTracker false 180 10485760 [] 0 with running := true } :=
    Relation.ReflTransGen.single
      (Step.startCall (initTracker false 180 10485760 [] 0) (by decide))
  have t2 := t1.tail
    (Step.log_event { initTracker false 180 10485760 [] 0 with running := true } 7)
  have t3 := t2.tail (Step.event_writer_resolve _ 1 7 [] (by decide) (by decide) (by decide))
  have t4 := t3.tail (Step.rotate_access _ 200 (by decide))
  have hc := (h false 180 10485760 0 [] _ t4).1 0 7 (by decide)
  exact absurd hc (by decide)

end TimeTracker

namespace TimeTracker

theorem inv_create (now : Nat) (st : TrackerState) (hnow : st.nextId ≤ now) (h : Inv st) :
    Inv (create_new_session_folder now st) := by
  obtain ⟨hq, hc, hp, hd, _⟩ := h
  have hq' : ∀ x ∈ (create_new_session_folder now st).completedFoldersQueue, x ≤ now := by
    intro x hx
    rw [create_queue_eq] at hx
    rcases List.mem_append.mp hx with hx | hx
    · have := hq x hx; omega
    · rcases hpv : st.previousSessionDir with _ | p
      · rw [hpv] at hx; cases hx
      · rw [hpv] at hx
        by_cases hcond : (diskHas st.disk p && st.uploadToB2) = true
        · simp [hcond] at hx
          have := hp p hpv
          omega
        · simp [hcond] at hx
  refine ⟨?_, ?_, ?_, ?_, ?_⟩
  · intro x hx
    have := hq' x hx
    show x < now + 1
    omega
  · intro c hcc
    have : c = now := by
      have : some now = some c := hcc
      exact (Option.some.injEq _ _ ▸ this).symm
    show c < now + 1
    omega
  · intro p hpp
    have := hc p hpp
    show p < now + 1
    omega
  · intro kv hkv
    show kv.1 < now + 1
    have hkv' : kv ∈ mkdirSession st.disk now := hkv
    rw [mkdirSession] at hkv'
    by_cases hdd : diskHas st.disk now = true
    · rw [if_pos hdd] at hkv'
      have := hd kv hkv'; omega
    · rw [if_neg hdd] at hkv'
      rcases List.mem_append.mp hkv' with hkv'' | hkv''
      · have := hd kv hkv''; omega
      · rw [List.mem_singleton.mp hkv'']; omega
  · intro _ c hcc hmem
    have hcn : c = now := by
      have : some now = some c := hcc
      exact (Option.some.injEq _ _ ▸ this).symm
    have := hq' c hmem
    have hlt : c < now + 1 := by omega
    have hcq : c < st.nextId ∨ c ≤ now := Or.inr this
    -- c is in the queue, so c ≤ now is not enough: bound strictly below nextId
    rw [create_queue_eq] at hmem
    rcases List.mem_append.mp hmem with hx | hx
    · have := hq c hx; omega
    · rcases hpv : st.previousSessionDir with _ | p
      · rw [hpv] at hx; cases hx
      · rw [hpv] at hx
        by_cases hcond : (diskHas st.disk p && st.uploadToB2) = true
        · simp [hcond] at hx
          have := hp p hpv
          omega
        · simp [hcond] at hx

theorem inv_check (now : Nat) (st : TrackerState) (hnow : st.nextId ≤ now) (h : Inv st) :
    Inv (check_and_rotate_folder now st) := by
  cases hcur : st.currentSessionDir with
  | none =>
    have he : check_and_rotate_folder now st = create_new_session_folder now st := by
      simp [check_and_rotate_folder, hcur]
    rw [he]; exact inv_create now st hnow h
  | some c =>
    by_cases h1 : diskHas st.disk c = false
    · have he : check_and_rotate_folder now st = create_new_session_folder now st := by
        simp [check_and_rotate_folder, hcur, h1]
      rw [he]; exact inv_create now st hnow h
    · cases hst : st.sessionStartTime with
      | none =>
        have he : check_and_rotate_folder now st = { st with sessionStartTime := some now } := by
          simp [check_and_rotate_folder, hcur, h1, hst]
        rw [he]; exact h
      | some t0 =>
        by_cases h2 : st.folderRotationInterval ≤ now - t0
        · have he : check_and_rotate_folder now st = create_new_session_folder now st := by
            simp [check_and_rotate_folder, hcur, h1, hst, h2]
          rw [he]; exact inv_create now st hnow h
        · by_cases h3 : st.folderMaxSizeBytes ≤ get_folder_size st.disk c
          · have he : check_and_rotate_folder now st = create_new_session_folder now st := by
              simp [check_and_rotate_folder, hcur, h1, hst, h2, h3]
            rw [he]; exact inv_create now st hnow h
          · have he : check_and_rotate_folder now st = st := by
              simp [check_and_rotate_folder, hcur, h1, hst, h2, h3]
            rw [he]; exact h

theorem inv_resolveEvent (now r : Nat) (rest : List Nat) (st : TrackerState)
    (hnow : st.nextId ≤ now) (h : Inv st) : Inv (resolveEventStep now r rest st) := by
  have h1 : Inv { st with eventQueue := rest } := h
  have h2 : Inv (check_and_rotate_folder now { st with eventQueue := rest }) :=
    inv_check now _ hnow h1
  obtain ⟨c, hc, _⟩ := check_current_exists now { st with eventQueue := rest }
  have hres : resolveEventStep now r rest st =
      { check_and_rotate_folder now { st with eventQueue := rest } with
          writerPc := some (c, r) } := by
    simp only [resolveEventStep, get_events_file, ensure_after_check]
    rw [hc]
  rw [hres]
  exact h2

theorem inv_resolveProcess (now r : Nat) (rest : List Nat) (st : TrackerState)
    (hnow : st.nextId ≤ now) (h : Inv st) : Inv (resolveProcessStep now r rest st) := by
  have h1 : Inv { st with processQueue := rest } := h
  have h2 : Inv (check_and_rotate_folder now { st with processQueue := rest }) :=
    inv_check now _ hnow h1
  obtain ⟨c, hc, _⟩ := check_current_exists now { st with processQueue := rest }
  have hres : resolveProcessStep now r rest st =
      { check_and_rotate_folder now { st with processQueue := rest } with
          processWriterPc := some (c, r) } := by
    simp only [resolveProcessStep, get_processes_file, ensure_after_check]
    rw [hc]
  rw [hres]
  exact h2

theorem inv_writeEvent (p r : Nat) (st : TrackerState) (h : Inv st) :
    Inv (writeEventStep p r st) := by
  by_cases hdd : diskHas st.disk p = true
  · obtain ⟨hq, hc, hpv, hdk, hna⟩ := h
    rw [writeEventStep, if_pos hdd]
    refine ⟨hq, hc, hpv, ?_, hna⟩
    intro kv hkv
    simp only [bumpSize, List.mem_map] at hkv
    obtain ⟨kv0, hkv0, hkveq⟩ := hkv
    have hfst : kv.1 = kv0.1 := by
      rw [← hkveq]; by_cases h0 : kv0.1 = p <;> simp [h0]
    rw [hfst]
    exact hdk kv0 hkv0
  · rw [writeEventStep, if_neg hdd]; exact h

theorem inv_writeProcess (p r : Nat) (st : TrackerState) (h : Inv st) :
    Inv (writeProcessStep p r st) := by
  by_cases hdd : diskHas st.disk p = true
  · obtain ⟨hq, hc, hpv, hdk, hna⟩ := h
    rw [writeProcessStep, if_pos hdd]
    refine ⟨hq, hc, hpv, ?_, hna⟩
    intro kv hkv
    simp only [bumpSize, List.mem_map] at hkv
    obtain ⟨kv0, hkv0, hkveq⟩ := hkv
    have hfst : kv.1 = kv0.1 := by
      rw [← hkveq]; by_cases h0 : kv0.1 = p <;> simp [h0]
    rw [hfst]
    exact hdk kv0 hkv0
  · rw [writeProcessStep, if_neg hdd]; exact h

end TimeTracker

namespace TimeTracker

theorem inv_stop (st : TrackerState) (h : Inv st) : Inv (stop st) := by
  by_cases hr : st.running = false
  · have he : stop st = st := by simp [stop, hr]
    rw [he]; exact h
  · cases hcur : st.currentSessionDir with
    | none =>
      have he : stop st = { st with running := false, stopDone := true } := by
        simp [stop, hr, hcur]
      rw [he]
      obtain ⟨hq, hc, hp, hd, _⟩ := h
      exact ⟨hq, hc, hp, hd, fun habs => absurd habs (by simp)⟩
    | some c =>
      by_cases hb : (st.uploadToB2 && diskHas st.disk c) = true
      · have he : stop st =
            { st with
                running := false
                stopDone := true
                completedFoldersQueue := st.completedFoldersQueue ++ [c] } := by
          simp [stop, hr, hcur, hb]
        rw [he]
        obtain ⟨hq, hc2, hp, hd, _⟩ := h
        refine ⟨?_, hc2, hp, hd, fun habs => absurd habs (by simp)⟩
        intro x hx
        rcases List.mem_append.mp hx with hx | hx
        · exact hq x hx
        · rw [List.mem_singleton.mp hx]
          exact hc2 c hcur
      · have he : stop st = { st with running := false, stopDone := true } := by
          simp [stop, hr, hcur, hb]
        rw [he]
        obtain ⟨hq, hc2, hp, hd, _⟩ := h
        exact ⟨hq, hc2, hp, hd, fun habs => absurd habs (by simp)⟩

theorem inv_uploadDequeue (f : Nat) (rest : List Nat) (removed : Bool) (st : TrackerState)
    (hqst : st.completedFoldersQueue = f :: rest) (h : Inv st) :
    Inv (uploadDequeueStep f rest removed st) := by
  obtain ⟨hq, hc, hp, hd, hna⟩ := h
  refine ⟨?_, hc, hp, ?_, ?_⟩
  · intro x hx
    exact hq x (by rw [hqst]; exact List.mem_cons_of_mem _ hx)
  · intro kv hkv
    show kv.1 < st.nextId
    have hkv' : kv ∈ (if removed = true then
        st.disk.filter (fun kv => decide (kv.1 ≠ f)) else st.disk) := hkv
    by_cases hrem : removed = true
    · rw [if_pos hrem] at hkv'
      exact hd kv (List.mem_of_mem_filter hkv')
    · rw [if_neg hrem] at hkv'
      exact hd kv hkv'
  · intro hstop c hcc hmem
    exact hna hstop c hcc (by rw [hqst]; exact List.mem_cons_of_mem _ hmem)

theorem inv_queue_existing (st : TrackerState) (h : Inv st) :
    Inv (queue_existing_folders_for_upload st) := by
  obtain ⟨hq, hc, hp, hd, hna⟩ := h
  refine ⟨?_, hc, hp, hd, ?_⟩
  · intro x hx
    have hx' : x ∈ st.completedFoldersQueue ++
        (((st.disk.map Prod.fst).filter
          (fun n => decide (some n ≠ st.currentSessionDir))).insertionSort (· ≤ ·)).filter
          (fun f => diskHas st.disk f) := hx
    rcases List.mem_append.mp hx' with hm | hm
    · exact hq x hm
    · have hm1 := List.mem_of_mem_filter hm
      have hm2 : x ∈ (st.disk.map Prod.fst).filter
          (fun n => decide (some n ≠ st.currentSessionDir)) :=
        (List.perm_insertionSort (· ≤ ·) _).mem_iff.mp hm1
      obtain ⟨kv, hkv, hfst⟩ := List.mem_map.mp (List.mem_of_mem_filter hm2)
      show x < st.nextId
      rw [← hfst]
      exact hd kv hkv
  · intro hstop c hcc hmem
    have hmem' : c ∈ st.completedFoldersQueue ++
        (((st.disk.map Prod.fst).filter
          (fun n => decide (some n ≠ st.currentSessionDir))).insertionSort (· ≤ ·)).filter
          (fun f => diskHas st.disk f) := hmem
    rcases List.mem_append.mp hmem' with hm | hm
    · exact hna hstop c hcc hm
    · have hm1 := List.mem_of_mem_filter hm
      have hm2 : c ∈ (st.disk.map Prod.fst).filter
          (fun n => decide (some n ≠ st.currentSessionDir)) :=
        (List.perm_insertionSort (· ≤ ·) _).mem_iff.mp hm1
      have hne := List.of_mem_filter hm2
      have hcc' : st.currentSessionDir = some c := hcc
      rw [hcc'] at hne
      simp at hne

theorem inv_step {st st' : TrackerState} (hs : Step st st') (h : Inv st) : Inv st' := by
  cases hs with
  | startCall h0 => exact h
  | log_event r => exact h
  | log_processes r => exact h
  | event_writer_resolve now r rest hqe hpc hnow => exact inv_resolveEvent now r rest st hnow h
  | event_writer_append p r hpc => exact inv_writeEvent p r st h
  | process_writer_resolve now r rest hqe hpc hnow =>
      exact inv_resolveProcess now r rest st hnow h
  | process_writer_append p r hpc => exact inv_writeProcess p r st h
  | rotate_access now hnow => exact inv_check now st hnow h
  | stop_call => exact inv_stop st h
  | upload_dequeue f rest removed hqe => exact inv_uploadDequeue f rest removed st hqe h

theorem inv_init (u : Bool) (ri mb now0 : Nat) (leftovers : List (Nat × Nat))
    (hl : ∀ kv ∈ leftovers, kv.1 < now0) :
    Inv (initTracker u ri mb leftovers now0) := by
  have hbase : Inv (initBase u ri mb leftovers now0) := by
    refine ⟨?_, ?_, ?_, ?_, ?_⟩
    · intro x hx; cases hx
    · intro c hcc; cases hcc
    · intro p hpp; cases hpp
    · intro kv hkv; exact hl kv hkv
    · intro _ c hcc; cases hcc
  have h1 := inv_create now0 _ (Nat.le_refl now0) hbase
  cases hu : u with
  | false => exact h1
  | true => exact inv_queue_existing _ h1

theorem inv_reachable {s0 st : TrackerState} (h0 : Inv s0) (hr : Reachable s0 st) : Inv st := by
  induction hr with
  | refl => exact h0
  | tail _ hstep ih => exact inv_step hstep ih

end TimeTracker

namespace TimeTracker

/-- C3 (amended): in every reachable state in which `stop()` has not yet
run, the upload queue never contains the current session directory —
startup reconciliation skips the new active session, and a rotation
enqueues only strictly older sessions.  `stop()` itself breaks the
invariant by queueing the still-current session
(see `active_queued_counterexample`). -/
theorem active_session_not_queued_before_stop :
    ∀ (uploadEnabled : Bool) (ri mb now0 : Nat) (leftovers : List (Nat × Nat))
      (st : TrackerState),
      (∀ kv ∈ leftovers, kv.1 < now0) →
      Reachable (initTracker uploadEnabled ri mb leftovers now0) st →
      st.stopDone = false →
      ∀ c, st.currentSessionDir = some c → c ∉ st.completedFoldersQueue := by
  intro u ri mb now0 leftovers st hl hr hstop c hc
  exact (inv_reachable (inv_init u ri mb now0 leftovers hl) hr).2.2.2.2 hstop c hc

/-- Witness for `active_session_not_queued_before_stop` at the freshly
initialized tracker with one leftover session. -/
theorem active_session_not_queued_before_stop_witness :
    (∀ kv ∈ ([(2, 9)] : List (Nat × Nat)), kv.1 < 5) ∧
    Reachable (initTracker true 180 10485760 [(2, 9)] 5)
      (initTracker true 180 10485760 [(2, 9)] 5) ∧
    ((initTracker true 180 10485760 [(2, 9)] 5).stopDone = false) ∧
    (∀ c, (initTracker true 180 10485760 [(2, 9)] 5).currentSessionDir = some c →
      c ∉ (initTracker true 180 10485760 [(2, 9)] 5).completedFoldersQueue) :=
  ⟨by decide, Relation.ReflTransGen.refl, by decide,
    active_session_not_queued_before_stop true 180 10485760 5 [(2, 9)]
      (initTracker true 180 10485760 [(2, 9)] 5) (by decide)
      Relation.ReflTransGen.refl (by decide)⟩

/-- C3 as stated is false at shutdown: `stop()` enqueues the still-current
session directory, so right after `stop()` the upload queue contains the
Active session's path. -/
theorem active_queued_counterexample : ¬ claimC3 := by
  intro h
  have t1 : Reachable (initTracker true 180 10485760 [] 0)
      { initTracker true 180 10485760 [] 0 with running := true } :=
    Relation.ReflTransGen.single
      (Step.startCall (initTracker true 180 10485760 [] 0) (by decide))
  have t2 := t1.tail (Step.stop_call { initTracker true 180 10485760 [] 0 with
    running := true })
  have hc := h true 180 10485760 0 [] _ 0 t2 (by decide)
  exact hc (by decide)

end TimeTracker
